import Mathlib

/-!
Verification of the page-extraction core of `ebooklib/utils.py`
(`get_headers`, `get_pages`, `get_pages_for_items`).

The Markup Accessor (lxml) is external: we embed its output, the parsed
element tree, directly.  An lxml element exposes a tag name, an attribute
map with literal string keys (the HTML parser of lxml does not
namespace-process attribute names, so `epub:type` is stored under the
literal key "epub:type"), the direct text that precedes the first child
(`.text`), the text that follows the element's end tag inside its parent
(`.tail`), and the ordered list of children.  `text_content()` concatenates
the element's direct text with each child's flattened text and tail, in
document order, and `.iter()` enumerates the subtree in pre-order
(document) order.  Python `str.strip()` is embedded as `pyStrip` (drop
whitespace from both ends) and Python string truthiness as "non-empty".
-/

/-- Python `s.strip()`: the string with whitespace removed from both ends. -/
def pyStrip (s : String) : String :=
  ⟨((s.data.dropWhile Char.isWhitespace).reverse.dropWhile Char.isWhitespace).reverse⟩

/-- A node of the parsed HTML tree, as produced by lxml's HTML parser. -/
inductive Element where
  | mk (tag : String) (attrib : List (String × String)) (text : Option String)
      (tail : Option String) (children : List Element)
deriving Repr

/-- Tag name of an element. -/
def Element.tag : Element → String
  | .mk t _ _ _ _ => t

/-- Attribute map of an element (literal string keys, as in lxml's HTML parse). -/
def Element.attrib : Element → List (String × String)
  | .mk _ a _ _ _ => a

/-- Direct text of the element: the text before its first child (lxml `.text`). -/
def Element.text : Element → Option String
  | .mk _ _ t _ _ => t

/-- Text following the element inside its parent (lxml `.tail`). -/
def Element.tail : Element → Option String
  | .mk _ _ _ t _ => t

/-- Ordered children of the element. -/
def Element.children : Element → List Element
  | .mk _ _ _ _ c => c

/-- Attribute lookup, `elem.get(key)`: the value when present, else None. -/
def Element.get (e : Element) (key : String) : Option String :=
  e.attrib.lookup key

mutual

/-- lxml `text_content()`: the element's direct text followed by, for each
child in order, the child's flattened text and then the child's tail. -/
def Element.text_content : Element → String
  | .mk _ _ t _ cs => t.getD "" ++ textContentList cs

/-- Flattened text of a sibling list: each sibling's `text_content` followed
by its tail. -/
def textContentList : List Element → String
  | [] => ""
  | c :: rest => c.text_content ++ c.tail.getD "" ++ textContentList rest

end

mutual

/-- lxml `.iter()`: the subtree in pre-order (document) order, the element
itself first. -/
def Element.iterList : Element → List Element
  | .mk tg a t tl cs => .mk tg a t tl cs :: iterChildren cs

/-- Pre-order listings of a sibling list, concatenated in order. -/
def iterChildren : List Element → List Element
  | [] => []
  | c :: rest => c.iterList ++ iterChildren rest

end

/-- The direct children of `elem` whose tag is `h<n>`: lxml
`elem.xpath("./h{n}")`, in document order. -/
def hChildren (e : Element) (n : Nat) : List Element :=
  e.children.filter (fun c => c.tag == "h" ++ toString n)

/-- The loop body of `get_headers` over the remaining heading levels:
for each level `n`, if a direct child `h<n>` exists, look only at the first
one; return its flattened trimmed text when non-empty, otherwise move on. -/
def getHeadersLoop (e : Element) : List Nat → Option String
  | [] => none
  | n :: ns =>
    match hChildren e n with
    | [] => getHeadersLoop e ns
    | h :: _ =>
      let text := pyStrip h.text_content
      if text.length > 0 then some text else getHeadersLoop e ns

/-- `get_headers(elem)` from `utils.py` lines 97-105: try levels h1..h6 in
order; at each level with a direct child of that tag, test only the first
such child's flattened trimmed text. -/
def get_headers (e : Element) : Option String :=
  getHeadersLoop e [1, 2, 3, 4, 5, 6]

/-- A `(item_name, anchor_id, label)` triple emitted by `get_pages`. -/
def PageRecord := String × String × String
deriving instance Repr, DecidableEq for PageRecord

/-- Python `x or y` for an optional string `x` and string `y`: `y` when `x`
is None or the empty string, else the string in `x`. -/
def pyOrStr (x : Option String) (y : String) : String :=
  match x with
  | some s => if s.length > 0 then s else y
  | none => y

/-- The loop body of `get_pages` (lines 113-129) for one element: when the
literal attribute key "epub:type" is present and an "id" attribute is
present, emit the record; `_text` is the element's trimmed direct text when
non-empty, else the raw `aria-label` attribute (which may be empty or
whitespace), else the `get_headers` result; the label is `_text or id`. -/
def pageRecord? (name : String) (e : Element) : Option PageRecord :=
  if (e.get "epub:type").isSome && (e.get "id").isSome then
    let id := (e.get "id").getD ""
    let t1 : Option String :=
      match e.text with
      | some s => if pyStrip s ≠ "" then some (pyStrip s) else none
      | none => none
    let t2 : Option String :=
      match t1 with
      | some s => some s
      | none => e.get "aria-label"
    let t3 : Option String :=
      match t2 with
      | some s => some s
      | none => get_headers e
    some (name, id, pyOrStr t3 id)
  else
    none

/-- A content item: its stable name and its body markup already parsed by
the external Markup Accessor into an element tree. -/
structure EpubItem where
  name : String
  body : Element
deriving Repr

/-- `get_pages(item)` from `utils.py` lines 108-131: walk the parsed body
in document (pre-order) order and append a record for every element that
passes the line-113 test. -/
def get_pages (item : EpubItem) : List PageRecord :=
  item.body.iterList.filterMap (pageRecord? item.name)

/-- `get_pages_for_items(items)` from `utils.py` lines 134-137: the pages of
each item in order, flattened. -/
def get_pages_for_items (items : List EpubItem) : List PageRecord :=
  (items.map get_pages).flatten

/-! ## Helper lemmas -/

/-- A string has positive length exactly when it is not the empty string. -/
theorem str_length_pos (s : String) : 0 < s.length ↔ s ≠ "" := by
  cases s with
  | mk data =>
    simp [String.length, String.ext_iff]
    exact List.length_pos

/-- Whether a heading level fails in the `get_headers` loop: no direct
`h<n>` child, or the first one has whitespace-only flattened text. -/
def levelFails (e : Element) (n : Nat) : Bool :=
  match hChildren e n with
  | [] => true
  | h :: _ => (pyStrip h.text_content).length == 0

/-- The trimmed flattened text of the first direct `h<n>` child, if any. -/
def firstHText (e : Element) (n : Nat) : Option String :=
  (hChildren e n).head?.map (fun h => pyStrip h.text_content)

/-- The `get_headers` loop returns the trimmed text of the first child of
the first level that does not fail. -/
theorem getHeadersLoop_find (e : Element) (ns : List Nat) :
    getHeadersLoop e ns = (ns.find? (fun n => !levelFails e n)).bind (firstHText e) := by
  induction ns with
  | nil => rfl
  | cons n ns ih =>
    rw [getHeadersLoop]
    rcases hc : hChildren e n with _ | ⟨h, rest⟩
    · have hf : levelFails e n = true := by simp [levelFails, hc]
      simp [List.find?_cons, hf, ih]
    · by_cases hl : 0 < (pyStrip h.text_content).length
      · have hf : levelFails e n = false := by
          simp [levelFails, hc]
          omega
        simp only [List.find?_cons, hf]
        simp [hl, firstHText, hc]
      · have hf : levelFails e n = true := by
          simp [levelFails, hc]
          omega
        simp [List.find?_cons, hf, hl, ih]

/-! ## Claim C1 -/

/-- An element on which the line-113 test of `get_pages` and the claimed
"non-empty" test disagree: both `epub:type` and `id` are present but empty. -/
def exC1 : Element := .mk "span" [("epub:type", ""), ("id", "")] none none []

/-- Claim C1, counterexample: the code emits a record for an element whose
`epub:type` and `id` attributes are both present but empty, while the claim
requires both to be non-empty for a record to be emitted. -/
theorem c1_counterexample :
    get_pages ⟨"it", exC1⟩ = [("it", "", "")] ∧
    ¬ (∃ v, exC1.get "epub:type" = some v ∧ v ≠ "") ∧
    ¬ (∃ w, exC1.get "id" = some w ∧ w ≠ "") := by
  refine ⟨rfl, ?_, ?_⟩
  · rintro ⟨v, hv, hne⟩
    have : v = "" := by
      have : (some "" : Option String) = some v := hv
      simpa using this.symm
    exact hne this
  · rintro ⟨w, hw, hne⟩
    have : w = "" := by
      have : (some "" : Option String) = some w := hw
      simpa using this.symm
    exact hne this

/-- Claim C1 (amended): `get_pages` emits one record per element of the
pre-order traversal that passes the test, and an element passes exactly when
its attribute map holds the literal key "epub:type" and holds an "id" key —
presence only, the values may be empty. -/
theorem c1_amended (name : String) (t : Element) :
    get_pages ⟨name, t⟩ = t.iterList.filterMap (pageRecord? name) ∧
    ∀ e : Element,
      (pageRecord? name e).isSome ↔ ((e.get "epub:type").isSome ∧ (e.get "id").isSome) := by
  refine ⟨rfl, fun e => ?_⟩
  rw [pageRecord?]
  by_cases h1 : (e.get "epub:type").isSome <;>
    by_cases h2 : (e.get "id").isSome <;>
      simp [h1, h2]

/-! ## Claim C2 -/

/-- Modelled from the spec's words for claim C2, for comparison with the
code: the label is the first non-empty candidate among the trimmed direct
text, the `aria-label` value and the heading text, else the id. -/
def labelClaimedC2 (e : Element) (id : String) : String :=
  if pyStrip (e.text.getD "") ≠ "" then pyStrip (e.text.getD "")
  else if (e.get "aria-label").getD "" ≠ "" then (e.get "aria-label").getD ""
  else
    match get_headers e with
    | some t => if t ≠ "" then t else id
    | none => id

/-- A qualifying element with an empty `aria-label` attribute and a
non-empty direct `h1` heading child. -/
def exC2 : Element :=
  .mk "div" [("epub:type", "chapter"), ("id", "x"), ("aria-label", "")] none none
    [.mk "h1" [] (some "Head") none []]

/-- Claim C2, counterexample: on an element with an empty `aria-label` and a
non-empty `h1` child, the claimed chain picks the heading text "Head", but
the code labels the record with the id "x" — the mere presence of
`aria-label` stops the chain before the heading fallback. -/
theorem c2_counterexample :
    pageRecord? "it" exC2 = some ("it", "x", "x") ∧
    labelClaimedC2 exC2 "x" = "Head" ∧
    ("x" : String) ≠ "Head" := by
  refine ⟨rfl, rfl, by decide⟩

/-- Claim C2 (amended): the label is the trimmed direct text when non-empty;
otherwise, when the `aria-label` attribute is present the chain stops there —
the label is its verbatim value when non-empty, else the id, and the heading
fallback is never consulted; only when `aria-label` is absent is the
`get_headers` result used, and the id is the final fallback.  In particular
non-empty trimmed direct text always wins. -/
theorem c2_amended (name : String) (e : Element) (id : String)
    (hq : (e.get "epub:type").isSome) (hid : e.get "id" = some id) :
    pageRecord? name e = some (name, id,
      if pyStrip (e.text.getD "") ≠ "" then pyStrip (e.text.getD "")
      else
        match e.get "aria-label" with
        | some a => if a ≠ "" then a else id
        | none =>
          match get_headers e with
          | some t => if t ≠ "" then t else id
          | none => id) := by
  rw [pageRecord?]
  have hq2 : (e.get "id").isSome := by simp [hid]
  simp only [hq, hq2, Bool.and_self, if_pos, hid]
  rcases ht : e.text with _ | s
  · simp only [ht, Option.getD_none, Option.getD_some]
    have hst : pyStrip "" = "" := rfl
    rw [hst]
    simp only [ne_eq, not_true_eq_false, if_neg, not_false_eq_true]
    rcases ha : e.get "aria-label" with _ | a
    · rcases hh : get_headers e with _ | t
      · simp [pyOrStr]
      · simp only [pyOrStr]
        rcases Nat.eq_zero_or_pos t.length with h0 | hpos
        · have : t = "" := by
            by_contra hne
            have := (str_length_pos t).mpr hne
            omega
          simp [this, h0]
        · have hne : t ≠ "" := (str_length_pos t).mp hpos
          simp [hne, hpos]
    · simp only [pyOrStr]
      rcases Nat.eq_zero_or_pos a.length with h0 | hpos
      · have : a = "" := by
          by_contra hne
          have := (str_length_pos a).mpr hne
          omega
        simp [this, h0]
      · have hne : a ≠ "" := (str_length_pos a).mp hpos
        simp [hne, hpos]
  · simp only [ht, Option.getD_some]
    by_cases hs : pyStrip s ≠ ""
    · have hpos : 0 < (pyStrip s).length := (str_length_pos (pyStrip s)).mpr hs
      simp [hs, pyOrStr, hpos]
    · simp only [hs, if_neg, not_false_eq_true, not_not]
      push_neg at hs
      simp only [hs, ne_eq, not_true_eq_false, if_neg, not_false_eq_true]
      rcases ha : e.get "aria-label" with _ | a
      · rcases hh : get_headers e with _ | t
        · simp [pyOrStr]
        · simp only [pyOrStr]
          rcases Nat.eq_zero_or_pos t.length with h0 | hpos
          · have : t = "" := by
              by_contra hne
              have := (str_length_pos t).mpr hne
              omega
            simp [this, h0]
          · have hne : t ≠ "" := (str_length_pos t).mp hpos
            simp [hne, hpos]
      · simp only [pyOrStr]
        rcases Nat.eq_zero_or_pos a.length with h0 | hpos
        · have : a = "" := by
            by_contra hne
            have := (str_length_pos a).mpr hne
            omega
          simp [this, h0]
        · have hne : a ≠ "" := (str_length_pos a).mp hpos
          simp [hne, hpos]

/-- An element whose direct text is non-empty after trimming, with an
`aria-label` and a heading child that must both lose. -/
def exC2w : Element :=
  .mk "div" [("epub:type", "c"), ("id", "z"), ("aria-label", "AL")] (some "  Hello  ") none
    [.mk "h1" [] (some "H") none []]

/-- Claim C2 (amended), witness: on a concrete element with direct text
"  Hello  ", aria-label "AL" and a heading "H", the label is "Hello". -/
theorem c2_amended_witness : pageRecord? "n" exC2w = some ("n", "z", "Hello") := by
  have h := c2_amended "n" exC2w "z" rfl rfl
  simpa using h

/-! ## Claim C3 -/

/-- A qualifying element whose `id` is the empty string and which has no
text, no `aria-label` and no headings. -/
def exC3 : Element := .mk "span" [("epub:type", "pagebreak"), ("id", "")] none none []

/-- Claim C3, counterexample: for an element whose `id` attribute is present
but empty, `get_pages` emits a record whose label is the empty string, so
the label is not "never empty". -/
theorem c3_counterexample :
    get_pages ⟨"it", exC3⟩ = [("it", "", "")] ∧
    ¬ (∀ r ∈ get_pages ⟨"it", exC3⟩, r.2.2 ≠ "") := by
  refine ⟨rfl, fun h => ?_⟩
  exact h ("it", "", "") (List.Mem.head _) rfl

/-- Claim C3 (amended): the label of an emitted record is the code's chain
value when truthy and the anchor id otherwise, so it is non-empty whenever
the anchor id is non-empty; when the id is the empty string and every chain
candidate is absent or empty, the label is the empty string. -/
theorem c3_amended (name : String) (t : Element) (r : PageRecord)
    (hr : r ∈ get_pages ⟨name, t⟩) (hid : r.2.1 ≠ "") : r.2.2 ≠ "" := by
  rw [get_pages, List.mem_filterMap] at hr
  obtain ⟨e, _, he⟩ := hr
  rw [pageRecord?] at he
  by_cases hq : ((e.get "epub:type").isSome && (e.get "id").isSome) = true
  · rw [if_pos hq] at he
    have hrd : r = (name, (e.get "id").getD "",
        pyOrStr (match (match (match e.text with
          | some s => if pyStrip s ≠ "" then some (pyStrip s) else none
          | none => none) with
          | some s => some s
          | none => e.get "aria-label") with
          | some s => some s
          | none => get_headers e) ((e.get "id").getD "")) := by
      exact (Option.some.inj he).symm
    rcases hrd with rfl
    simp only [ne_eq] at hid ⊢
    generalize (match (match (match e.text with
          | some s => if pyStrip s ≠ "" then some (pyStrip s) else none
          | none => none) with
          | some s => some s
          | none => e.get "aria-label") with
          | some s => some s
          | none => get_headers e) = t3 at *
    rcases t3 with _ | s
    · simpa [pyOrStr] using hid
    · simp only [pyOrStr]
      rcases Nat.eq_zero_or_pos s.length with h0 | hpos
      · simpa [h0] using hid
      · have hne : s ≠ "" := (str_length_pos s).mp hpos
        simpa [hpos] using hne
  · rw [if_neg hq] at he
    exact absurd he (by simp)

/-- A qualifying element with a non-empty id and nothing for the label
chain, so the label falls back to the id. -/
def exC3w : Element := .mk "div" [("epub:type", "chapter"), ("id", "ch3")] none none []

/-- Claim C3 (amended), witness: the record emitted for `exC3w` has the
non-empty id "ch3" and hence the non-empty label "ch3". -/
theorem c3_amended_witness : (("it", "ch3", "ch3") : PageRecord).2.2 ≠ "" := by
  refine c3_amended "it" exC3w ("it", "ch3", "ch3") ?_ (by decide)
  exact List.Mem.head _

/-! ## Claim C4 -/

/-- A qualifying element with no direct text, a whitespace-only `aria-label`
and a non-empty `h1` child. -/
def exC4 : Element :=
  .mk "div" [("epub:type", "chapter"), ("id", "x"), ("aria-label", "   ")] none none
    [.mk "h1" [] (some "Head") none []]

/-- Claim C4, counterexample: with a whitespace-only `aria-label` the claim
demands that the aria-label be rejected and the heading "Head" be consulted,
but the code uses the whitespace string "   " verbatim as the label. -/
theorem c4_counterexample :
    pageRecord? "it" exC4 = some ("it", "x", "   ") ∧
    pyStrip "   " = "" ∧
    get_headers exC4 = some "Head" ∧
    ("   " : String) ≠ "Head" := by
  exact ⟨rfl, rfl, rfl, by decide⟩

/-- Claim C4 (amended): only the direct-text candidate is checked against
"non-empty after trimming".  When the direct text is absent or
whitespace-only and an `aria-label` attribute is present, its value is used
verbatim — untrimmed and without an emptiness test against the chain: a
whitespace-only value becomes the label, an empty value falls through to the
id, and `get_headers` is not consulted in either case. -/
theorem c4_amended (name : String) (e : Element) (id a : String)
    (hq : (e.get "epub:type").isSome) (hid : e.get "id" = some id)
    (htext : pyStrip (e.text.getD "") = "") (ha : e.get "aria-label" = some a) :
    pageRecord? name e = some (name, id, if 0 < a.length then a else id) := by
  have h := c2_amended name e id hq hid
  rw [h, htext]
  simp only [ne_eq, not_true_eq_false, if_neg, not_false_eq_true, ha]
  rcases Nat.eq_zero_or_pos a.length with h0 | hpos
  · have : a = "" := by
      by_contra hne
      have := (str_length_pos a).mpr hne
      omega
    simp [this, h0]
  · have hne : a ≠ "" := (str_length_pos a).mp hpos
    simp [hne, hpos]

/-- Claim C4 (amended), witness: on the concrete element `exC4` the
whitespace aria-label "   " is the emitted label. -/
theorem c4_amended_witness : pageRecord? "it" exC4 = some ("it", "x", "   ") := by
  have h := c4_amended "it" exC4 "x" "   " rfl rfl rfl rfl
  simpa using h

/-! ## Claim C5 -/

/-- A direct `h1` child with whitespace-only text. -/
def exC5h1a : Element := .mk "h1" [] (some "  ") none []

/-- A later direct `h1` sibling with non-empty text. -/
def exC5h1b : Element := .mk "h1" [] (some "X") none []

/-- An element whose only headings are the two `h1` children above. -/
def exC5 : Element := .mk "div" [] none none [exC5h1a, exC5h1b]

/-- Claim C5, counterexample: `exC5` has a direct child heading with
non-empty trimmed text (the second `h1`, text "X"), yet `get_headers`
returns the no-label sentinel, because only the first heading of each level
is ever inspected. -/
theorem c5_counterexample :
    get_headers exC5 = none ∧
    hChildren exC5 1 = [exC5h1a, exC5h1b] ∧
    pyStrip exC5h1b.text_content = "X" ∧
    ("X" : String) ≠ "" := by
  exact ⟨rfl, rfl, rfl, by decide⟩

/-- Claim C5 (amended): `get_headers` tries levels h1..h6 in numeric order
over direct children only, inspecting just the first direct child of each
level: it returns the trimmed flattened text of the first child of the first
level whose first child has non-empty trimmed text, and returns none exactly
when every level either has no direct `h<n>` child or has a first such child
with whitespace-only flattened text. -/
theorem c5_amended (e : Element) :
    get_headers e = (List.find? (fun n => !levelFails e n) [1, 2, 3, 4, 5, 6]).bind (firstHText e) ∧
    (get_headers e = none ↔ ∀ n ∈ [1, 2, 3, 4, 5, 6], levelFails e n = true) := by
  have h := getHeadersLoop_find e [1, 2, 3, 4, 5, 6]
  refine ⟨h, ?_⟩
  rw [get_headers, h]
  constructor
  · intro hb n hn
    by_contra hfail
    have hfind : ∃ m ∈ [1, 2, 3, 4, 5, 6], (fun k => !levelFails e k) m = true := by
      exact ⟨n, hn, by simp [hfail]⟩
    obtain ⟨m, hm⟩ := List.find?_isSome.mpr hfind |> Option.isSome_iff_exists.mp
    rw [hm] at hb
    have hmp := List.find?_some hm
    simp only [Bool.not_eq_true'] at hmp
    have : (firstHText e m).isSome := by
      rw [firstHText]
      rcases hc : hChildren e m with _ | ⟨hd, rest⟩
      · exfalso
        have : levelFails e m = true := by simp [levelFails, hc]
        simp [this] at hmp
      · simp
    simp only [Option.some_bind] at hb
    rw [hb] at this
    exact absurd this (by simp)
  · intro hall
    have : List.find? (fun n => !levelFails e n) [1, 2, 3, 4, 5, 6] = none := by
      rw [List.find?_eq_none]
      intro n hn
      simp [hall n hn]
    rw [this]
    rfl

/-! ## Claim C6 -/

/-- Claim C6: `get_pages` walks the parsed body in pre-order document order,
so whenever the traversal lists qualifying element `a` before qualifying
element `b`, the record of `a` precedes the record of `b` in the output. -/
theorem c6_order (name : String) (t : Element) (l₁ l₂ l₃ : List Element)
    (a b : Element) (ra rb : PageRecord)
    (h : t.iterList = l₁ ++ a :: (l₂ ++ b :: l₃))
    (ha : pageRecord? name a = some ra) (hb : pageRecord? name b = some rb) :
    get_pages ⟨name, t⟩ =
      l₁.filterMap (pageRecord? name) ++
        ra :: (l₂.filterMap (pageRecord? name) ++ rb :: l₃.filterMap (pageRecord? name)) := by
  rw [get_pages]
  show (Element.iterList t).filterMap (pageRecord? name) = _
  rw [h]
  simp [List.filterMap_append, List.filterMap_cons, ha, hb]

/-- A qualifying child element with id "b". -/
def exC6b : Element := .mk "span" [("epub:type", "p"), ("id", "b")] none none []

/-- A qualifying root with id "a" containing `exC6b`. -/
def exC6t : Element := .mk "div" [("epub:type", "c"), ("id", "a")] none none [exC6b]

/-- Claim C6, witness: in the nested document `exC6t` the root's record
precedes the child's record. -/
theorem c6_order_witness :
    get_pages ⟨"it", exC6t⟩ = [("it", "a", "a"), ("it", "b", "b")] := by
  have h := c6_order "it" exC6t [] [] [] exC6t exC6b
    ("it", "a", "a") ("it", "b", "b") rfl rfl rfl
  simpa using h

/-! ## Claim C7 -/

/-- Claim C7: `get_pages_for_items` is exactly the ordered concatenation of
`get_pages` over the items — no sorting, filtering or deduplication; the
empty list yields the empty list; and an item with no landmarks contributes
nothing and leaves the surrounding items' records unchanged. -/
theorem c7_concat (items pre post : List EpubItem) (i : EpubItem)
    (hi : get_pages i = []) :
    get_pages_for_items items = items.flatMap get_pages ∧
    get_pages_for_items ([] : List EpubItem) = [] ∧
    get_pages_for_items (pre ++ i :: post) =
      get_pages_for_items pre ++ get_pages_for_items post := by
  refine ⟨?_, rfl, ?_⟩
  · rw [get_pages_for_items]
    simp [List.flatMap_def]
  · rw [get_pages_for_items, get_pages_for_items, get_pages_for_items]
    simp [List.map_append, List.flatten_append, hi]

/-- An item whose single landmark is its root. -/
def exC7i1 : EpubItem := ⟨"one", .mk "div" [("epub:type", "c"), ("id", "p1")] none none []⟩

/-- An item with no landmarks at all. -/
def exC7mid : EpubItem := ⟨"mid", .mk "div" [] none none []⟩

/-- Another item whose single landmark is its root. -/
def exC7i2 : EpubItem := ⟨"two", .mk "div" [("epub:type", "c"), ("id", "p2")] none none []⟩

/-- Claim C7, witness: aggregating `[exC7i1, exC7mid, exC7i2]` concatenates
the two singleton outputs in item order, the empty item contributing
nothing. -/
theorem c7_concat_witness :
    get_pages_for_items [exC7i1, exC7mid, exC7i2] =
      [("one", "p1", "p1"), ("two", "p2", "p2")] := by
  have h := c7_concat [exC7i1, exC7mid, exC7i2] [exC7i1] [exC7i2] exC7mid rfl
  have h3 := h.2.2
  simpa using h3

/-! ## Claim C9 -/

/-- Claim C9: `get_pages` is deterministic — two items with the same name
and the same parsed body yield identical record sequences. -/
theorem c9_deterministic (i j : EpubItem)
    (hn : i.name = j.name) (hb : i.body = j.body) : get_pages i = get_pages j := by
  cases i with
  | mk n b =>
    cases j with
    | mk m c =>
      simp only [EpubItem.name] at hn
      simp only [EpubItem.body] at hb
      rw [hn, hb]

/-- An item used twice to exercise determinism. -/
def exC9i : EpubItem := ⟨"a", .mk "div" [("epub:type", "c"), ("id", "d1")] none none []⟩

/-- A second item record with the same name and body as `exC9i`. -/
def exC9j : EpubItem := ⟨"a", .mk "div" [("epub:type", "c"), ("id", "d1")] none none []⟩

/-- Claim C9, witness: the two identical concrete items produce identical
outputs. -/
theorem c9_deterministic_witness : get_pages exC9i = get_pages exC9j :=
  c9_deterministic exC9i exC9j rfl rfl

/-! ## Claim C10 -/

/-- Claim C10: within a heading level only the first direct child is
inspected — when the first direct `h1` child's flattened text trims to the
empty string, `get_headers` continues with levels h2..h6 regardless of any
later `h1` sibling. -/
theorem c10_first_heading_only (e c : Element) (cs : List Element)
    (h : hChildren e 1 = c :: cs) (hc : pyStrip c.text_content = "") :
    get_headers e = getHeadersLoop e [2, 3, 4, 5, 6] := by
  rw [get_headers, getHeadersLoop, h]
  simp [hc]

/-- First `h1` child with whitespace-only text. -/
def exC10a : Element := .mk "h1" [] (some " ") none []

/-- Later `h1` sibling with non-empty text, which the code skips. -/
def exC10b : Element := .mk "h1" [] (some "Later") none []

/-- An `h2` child whose text wins despite the non-empty `h1` sibling. -/
def exC10c : Element := .mk "h2" [] (some "Lower") none []

/-- An element with the three heading children above. -/
def exC10 : Element := .mk "div" [] none none [exC10a, exC10b, exC10c]

/-- Claim C10, witness: on `exC10` the level-1 search stops at the blank
first `h1`, and the label comes from the `h2` even though the second `h1`
says "Later". -/
theorem c10_first_heading_only_witness :
    get_headers exC10 = getHeadersLoop exC10 [2, 3, 4, 5, 6] ∧
    getHeadersLoop exC10 [2, 3, 4, 5, 6] = some "Lower" := by
  exact ⟨c10_first_heading_only exC10 exC10a [exC10b] rfl rfl, rfl⟩
